import Mathlib

/-
  Verification of the fuel-bill-generator core algorithms.

  Shallow embedding notes:
  * JavaScript numbers are modelled as exact rationals (ℚ).  `Math.round`
    is half-up rounding (`floor (x + 1/2)`), `Math.floor` is `Int.floor`,
    and the truncation performed by the `Date` constructor (TimeClip) is
    truncation toward zero (`qtrunc`).
  * `Math.random()` draws are modelled by an explicit stream
    `rng : ℕ → ℚ` of values in `[0, 1)`, consumed in program order.
  * Calendar dates are modelled by their day number relative to the Unix
    epoch (1970-01-01); the `YYYY-MM-DD` string form is produced by
    `formatCivil ∘ civilFromDays`, mirroring the `getFullYear`/`getMonth`/
    `getDate` + `padStart` formatting of the source.
-/

/-- Truncation toward zero, the conversion applied by the JS `Date`
constructor (TimeClip) to a non-integer millisecond value. -/
def qtrunc (q : ℚ) : ℤ := if 0 ≤ q then ⌊q⌋ else -⌊-q⌋

/-- JavaScript `Math.round`: round half toward positive infinity. -/
def jsRound (q : ℚ) : ℤ := ⌊q + 1/2⌋

/-- The idiom `Math.round(x * 100) / 100` used throughout the amount
distributor to round a value to two decimal places. -/
def round2 (q : ℚ) : ℚ := (jsRound (q * 100) : ℚ) / 100

/-- A rational is an exact two-decimal (minor-currency-unit) value. -/
def Cents (q : ℚ) : Prop := ∃ m : ℤ, q = (m : ℚ) / 100

namespace AmountDistributor

/-
  Embedding of `distributeAmount` from `utils/amountDistributor.js`
  (the module text appears appended to QUICK-START.md in this snapshot).
  Thrown `Error`s become values of `DistErr`; the `numberOfBills`
  parameter is an integer count (the callers validate integrality).
-/

inductive DistErr where
  | totalNotPositive
  | countLessThanOne
  | maxNotPositive
  | infeasible
  | notPositive (billIndex : ℕ)
  | exceedsMax (billIndex : ℕ)
  deriving DecidableEq, Repr

/-- The constant `minAmountPerBill = 0.01` of the source. -/
def minAmountPerBill : ℚ := 1/100

/-- One iteration body of the distribution loop: the bounds
`maxForThisBill` / `minForThisBill` computed from `remaining` and
`remainingBills`, the uniform draw between them, rounded to cents. -/
def stepAmount (maxAmountPerBill : ℚ) (remainingBills : ℕ)
    (remaining : ℚ) (r : ℚ) : ℚ :=
  let maxForThisBill :=
    min maxAmountPerBill (remaining - (remainingBills : ℚ) * minAmountPerBill)
  let minForThisBill :=
    max minAmountPerBill (remaining - (remainingBills : ℚ) * maxAmountPerBill)
  round2 (minForThisBill + r * (maxForThisBill - minForThisBill))

/-- The `for (let i = 0; i < numberOfBills - 1; i++)` loop of
`distributeAmount`.  The first argument counts the iterations still to
run (so `remainingBills = numberOfBills - i - 1` equals that count), the
second is the index of the next random draw, the third is `remaining`.
Returns the assigned amounts in order together with the final value of
`remaining`. -/
def distLoop (maxAmountPerBill : ℚ) (rng : ℕ → ℚ) :
    ℕ → ℕ → ℚ → List ℚ × ℚ
  | 0, _, remaining => ([], remaining)
  | j + 1, i, remaining =>
    let a := stepAmount maxAmountPerBill (j + 1) remaining (rng i)
    let rest := distLoop maxAmountPerBill rng j (i + 1) (remaining - a)
    (a :: rest.1, rest.2)

/-- The final validation loop: throws on the first amount that is not
positive, or that exceeds the maximum (checked in that order per index). -/
def checkAmounts (maxAmountPerBill : ℚ) : ℕ → List ℚ → Option DistErr
  | _, [] => none
  | i, a :: rest =>
    if a ≤ 0 then some (.notPositive i)
    else if maxAmountPerBill < a then some (.exceedsMax i)
    else checkAmounts maxAmountPerBill (i + 1) rest

/-- The full amounts array after the loop: the `numberOfBills - 1`
drawn amounts followed by `amounts[numberOfBills - 1] =
Math.round(remaining * 100) / 100`. -/
def buildAmounts (totalAmount : ℚ) (numberOfBills : ℕ)
    (maxAmountPerBill : ℚ) (rng : ℕ → ℚ) : List ℚ :=
  let firsts := distLoop maxAmountPerBill rng (numberOfBills - 1) 0 totalAmount
  firsts.1 ++ [round2 firsts.2]

/-- The tail of `distributeAmount`: the per-amount validation loop
followed by the rounding-discrepancy correction of the last bill. -/
def finalize (totalAmount : ℚ) (numberOfBills : ℕ) (maxAmountPerBill : ℚ)
    (amounts : List ℚ) : Except DistErr (List ℚ) :=
  match checkAmounts maxAmountPerBill 0 amounts with
  | some e => .error e
  | none =>
    let roundedSum := round2 amounts.sum
    let roundedTotal := round2 totalAmount
    if 1/100 < |roundedSum - roundedTotal| then
      let diff := roundedTotal - roundedSum
      .ok (amounts.set (numberOfBills - 1)
        (round2 (amounts.getD (numberOfBills - 1) 0 + diff)))
    else
      .ok amounts

/-- Embedding of `distributeAmount(totalAmount, numberOfBills,
maxAmountPerBill)`.  The random draws of the loop are `rng 0, rng 1, …`. -/
def distributeAmount (totalAmount : ℚ) (numberOfBills : ℕ)
    (maxAmountPerBill : ℚ) (rng : ℕ → ℚ) : Except DistErr (List ℚ) :=
  if totalAmount ≤ 0 then .error .totalNotPositive
  else if numberOfBills < 1 then .error .countLessThanOne
  else if maxAmountPerBill ≤ 0 then .error .maxNotPositive
  else if maxAmountPerBill * (numberOfBills : ℚ) < totalAmount then
    .error .infeasible
  else
    finalize totalAmount numberOfBills maxAmountPerBill
      (buildAmounts totalAmount numberOfBills maxAmountPerBill rng)

end AmountDistributor

namespace DateGenerator

/-
  Embedding of `src/utils/dateGenerator.js`.

  A `YYYY-MM-DD` input string is represented by its epoch day number
  (`new Date("YYYY-MM-DD")` parses to exactly `day * 86400000` UTC
  milliseconds).  The host timezone enters through the parameter `off`,
  the host UTC offset in milliseconds: the local-time accessors
  `getFullYear`/`getMonth`/`getDate` applied to a timestamp `t` read the
  civil date of the day number `⌊(t + off) / 86400000⌋`.
-/

/-- Milliseconds per day (`1000 * 60 * 60 * 24`). -/
def dayMs : ℤ := 86400000

/-- One generated schedule slot: epoch day plus time of day.  The source
stores the date as a string and the formatted variants alongside; those
are determined by `day`, `hour`, `minute`. -/
structure Slot where
  day : ℤ
  hour : ℤ
  minute : ℤ
  deriving DecidableEq, Repr

/-- Civil date from epoch day number (proleptic Gregorian), the
computation performed by the `Date` accessors.  Returns (year, month,
day-of-month). -/
def civilFromDays (z : ℤ) : ℤ × ℤ × ℤ :=
  let z' := z + 719468
  let era := z'.fdiv 146097
  let doe := z' - era * 146097
  let yoe := (doe - doe.fdiv 1460 + doe.fdiv 36524 - doe.fdiv 146096).fdiv 365
  let y := yoe + era * 400
  let doy := doe - (365 * yoe + yoe.fdiv 4 - yoe.fdiv 100)
  let mp := (5 * doy + 2).fdiv 153
  let d := doy - (153 * mp + 2).fdiv 5 + 1
  let m := mp + (if mp < 10 then 3 else -9)
  (if m ≤ 2 then y + 1 else y, m, d)

/-- Epoch day number from a civil date (inverse of `civilFromDays`). -/
def daysFromCivil (y m d : ℤ) : ℤ :=
  let y' := if m ≤ 2 then y - 1 else y
  let era := y'.fdiv 400
  let yoe := y' - era * 400
  let mp := (m + 9) % 12
  let doy := (153 * mp + 2).fdiv 5 + d - 1
  let doe := yoe * 365 + yoe.fdiv 4 - yoe.fdiv 100 + doy
  era * 146097 + doe - 719468

/-- JavaScript `String(n).padStart(2, "0")` for the month/day fields. -/
def pad2 (n : ℤ) : String :=
  if n < 10 then "0" ++ toString n else toString n

/-- The template `${year}-${month}-${day}` of `generateRandomDate`. -/
def formatCivil : ℤ × ℤ × ℤ → String
  | (y, m, d) => toString y ++ "-" ++ pad2 m ++ "-" ++ pad2 d

/-- Core of `generateRandomDate`: the day number whose civil date the
function formats.  `randomTimestamp = start + r * (end - start)` is
truncated by the `Date` constructor, then read back through the
local-time accessors (UTC offset `off`). -/
def generateRandomDay (off startDay endDay : ℤ) (r : ℚ) : ℤ :=
  let startTimestamp : ℚ := ((startDay * dayMs : ℤ) : ℚ)
  let endTimestamp : ℚ := ((endDay * dayMs : ℤ) : ℚ)
  let randomTimestamp := startTimestamp + r * (endTimestamp - startTimestamp)
  (qtrunc randomTimestamp + off).fdiv dayMs

inductive DateErr where
  | endBeforeStart
  | rangeTooSmall
  | exhausted
  | badFormat
  | badYear
  | outOfRange
  deriving DecidableEq, Repr

/-- Embedding of `generateRandomDate(startDate, endDate)` on valid date
inputs (the `isNaN` guards cannot fire for day-number inputs). -/
def generateRandomDate (off startDay endDay : ℤ) (r : ℚ) :
    Except DateErr String :=
  if endDay < startDay then .error .endBeforeStart
  else .ok (formatCivil (civilFromDays (generateRandomDay off startDay endDay r)))

/-- The hour drawn by `generateRandomTime`: `6 + floor(r * (22 - 6))`. -/
def randomHour (r : ℚ) : ℤ := 6 + ⌊r * 16⌋

/-- The minute drawn by `generateRandomTime`: `floor(r * 60)`. -/
def randomMinute (r : ℚ) : ℤ := ⌊r * 60⌋

/-- Embedding of `isDateProperlySpaced(newDate, existingDates,
minDaysApart)`: millisecond distance to every accepted date must be at
least `minDaysApart` days. -/
def isDateProperlySpaced (newDay : ℤ) (existingDates : List Slot)
    (minDaysApart : ℤ) : Bool :=
  existingDates.all fun dateObj =>
    !(decide (|newDay * dayMs - dateObj.day * dayMs| < minDaysApart * dayMs))

/-- The rejection-sampling `while` loop of `generateUniqueDates`.  The
first numeric argument is the remaining attempt budget
(`maxAttempts - attempts`), the second the index of the next random
draw; the accumulator keeps accepted slots in insertion order (the
`usedDates` set always holds exactly their date strings).  Returns the
final accumulator and the number of attempts performed. -/
def genLoop (off startDay endDay minDaysApart count : ℤ) (rng : ℕ → ℚ) :
    ℕ → ℕ → List Slot → List Slot × ℕ
  | 0, _, dates => (dates, 0)
  | fuel + 1, k, dates =>
    if (dates.length : ℤ) < count then
      let randomDay := generateRandomDay off startDay endDay (rng k)
      if (dates.all fun d => !(decide (d.day = randomDay))) &&
          isDateProperlySpaced randomDay dates minDaysApart then
        let slot : Slot := ⟨randomDay, randomHour (rng (k + 1)), randomMinute (rng (k + 2))⟩
        let rest := genLoop off startDay endDay minDaysApart count rng fuel (k + 3) (dates ++ [slot])
        (rest.1, rest.2 + 1)
      else
        let rest := genLoop off startDay endDay minDaysApart count rng fuel (k + 1) dates
        (rest.1, rest.2 + 1)
    else (dates, 0)

/-- The ascending-by-date comparator of the final
`dates.sort((a, b) => new Date(a.date) - new Date(b.date))`.  A stable
sort with this comparator is modelled by insertion sort (stable sorts
agree on lists with the distinct keys the loop produces). -/
def slotLe (a b : Slot) : Prop := a.day ≤ b.day

instance : DecidableRel slotLe := fun a b => inferInstanceAs (Decidable (a.day ≤ b.day))

instance : IsTotal Slot slotLe := ⟨fun a b => le_total a.day b.day⟩

instance : IsTrans Slot slotLe := ⟨fun _ _ _ h1 h2 => le_trans h1 h2⟩

/-- Embedding of `generateUniqueDates(count, startDate, endDate,
minDaysApart)` together with the number of loop attempts performed. -/
def generateUniqueDatesRun (off count startDay endDay minDaysApart : ℤ)
    (rng : ℕ → ℚ) : Except DateErr (List Slot) × ℕ :=
  if endDay < startDay then (.error .endBeforeStart, 0)
  else
    let totalDays := (endDay * dayMs - startDay * dayMs).fdiv dayMs
    let minRequiredDays := (count - 1) * minDaysApart
    if totalDays < minRequiredDays then (.error .rangeTooSmall, 0)
    else
      let maxAttempts := count * 100
      let run := genLoop off startDay endDay minDaysApart count rng maxAttempts.toNat 0 []
      if (run.1.length : ℤ) < count then (.error .exhausted, run.2)
      else (.ok (List.insertionSort slotLe run.1), run.2)

def generateUniqueDates (off count startDay endDay minDaysApart : ℤ)
    (rng : ℕ → ℚ) : Except DateErr (List Slot) :=
  (generateUniqueDatesRun off count startDay endDay minDaysApart rng).1

def generateUniqueDatesAttempts (off count startDay endDay minDaysApart : ℤ)
    (rng : ℕ → ℚ) : ℕ :=
  (generateUniqueDatesRun off count startDay endDay minDaysApart rng).2

end DateGenerator

namespace DateGeneratorUTC

/-
  Embedding of the `parseDate`-based date generator variant
  (src/unnamed/part_002): dates are parsed with `Date.UTC`, the random
  draw is converted to an integer day offset from the start date, and
  the result is read back exclusively with `getUTC*` accessors, so the
  host UTC offset never enters.  The function also re-validates its own
  output (format shape, plausible year, membership in the input range).
-/

open DateGenerator

/-- The day number produced by the variant: `startDay` plus
`Math.floor((randomTimestamp - startTimestamp) / 86400000)`, checked as
in the source.  Returns the day number the output string denotes. -/
def generateRandomDayResult (startDay endDay : ℤ) (r : ℚ) :
    Except DateErr ℤ :=
  if endDay < startDay then .error .endBeforeStart
  else
    let startTimestamp : ℚ := ((startDay * dayMs : ℤ) : ℚ)
    let endTimestamp : ℚ := ((endDay * dayMs : ℤ) : ℚ)
    let randomTimestamp := startTimestamp + r * (endTimestamp - startTimestamp)
    let daysDiff := ⌊(randomTimestamp - startTimestamp) / ((dayMs : ℤ) : ℚ)⌋
    let resultDay := startDay + daysDiff
    let y := (civilFromDays resultDay).1
    if ¬ (1000 ≤ y ∧ y ≤ 9999) then .error .badFormat
    else if y < 1900 ∨ 2100 < y then .error .badYear
    else if resultDay * dayMs < startDay * dayMs ∨ endDay * dayMs < resultDay * dayMs then
      .error .outOfRange
    else .ok resultDay

/-- The variant `generateRandomDate(startDate, endDate)`: the formatted
string of the checked day number.  No host-offset parameter exists
because the source never consults local time. -/
def generateRandomDate (startDay endDay : ℤ) (r : ℚ) :
    Except DateErr String :=
  (generateRandomDayResult startDay endDay r).map fun d =>
    formatCivil (civilFromDays d)

/-- The rejection-sampling loop of the variant `generateUniqueDates`;
identical to `DateGenerator.genLoop` except that a failed draw
propagates its error (the source would throw out of the loop). -/
def genLoopU (startDay endDay minDaysApart count : ℤ) (rng : ℕ → ℚ) :
    ℕ → ℕ → List Slot → Except DateErr (List Slot)
  | 0, _, dates => .ok dates
  | fuel + 1, k, dates =>
    if (dates.length : ℤ) < count then
      match generateRandomDayResult startDay endDay (rng k) with
      | .error e => .error e
      | .ok randomDay =>
        if (dates.all fun d => !(decide (d.day = randomDay))) &&
            isDateProperlySpaced randomDay dates minDaysApart then
          genLoopU startDay endDay minDaysApart count rng fuel (k + 3)
            (dates ++ [⟨randomDay, randomHour (rng (k + 1)), randomMinute (rng (k + 2))⟩])
        else
          genLoopU startDay endDay minDaysApart count rng fuel (k + 1) dates
    else .ok dates

/-- The variant `generateUniqueDates(count, startDate, endDate,
minDaysApart)` from src/unnamed/part_002. -/
def generateUniqueDates (count startDay endDay minDaysApart : ℤ)
    (rng : ℕ → ℚ) : Except DateErr (List Slot) :=
  if endDay < startDay then .error .endBeforeStart
  else if (endDay * dayMs - startDay * dayMs).fdiv dayMs < (count - 1) * minDaysApart then
    .error .rangeTooSmall
  else
    match genLoopU startDay endDay minDaysApart count rng (count * 100).toNat 0 [] with
    | .error e => .error e
    | .ok dates =>
      if (dates.length : ℤ) < count then .error .exhausted
      else .ok (List.insertionSort slotLe dates)

end DateGeneratorUTC

namespace Validator

/-
  Embedding of `src/utils/validator.js` (the version without the date
  format regex and without `validateDateRangeCapacity`).

  Form field values are JavaScript values (`JSVal`): a number, a string,
  `undefined` or `null`.  `parseInt`/`parseFloat` are modelled on the
  decimal simple-number subset actually exchanged by the form (optional
  sign, digits, optional fraction; no exponent or radix prefixes), and
  `new Date(string)` on the ISO `YYYY-MM-DD` subset, which parses to UTC
  midnight of the denoted day and rejects out-of-range components.
-/

inductive JSVal where
  | undefinedVal
  | null
  | num (q : ℚ)
  | str (s : String)
  deriving DecidableEq

/-- JavaScript falsiness for the modelled values. -/
def falsy : JSVal → Bool
  | .undefinedVal => true
  | .null => true
  | .num q => decide (q = 0)
  | .str s => decide (s = "")

/-- Numeric value of a digit list (most significant first). -/
def digitsVal : List Char → ℕ
  | [] => 0
  | c :: rest => (c.toNat - 48) * 10 ^ rest.length + digitsVal rest

/-- Leading-digits parser shared by `parseInt`. -/
def parseDigits (cs : List Char) : Option ℕ :=
  let ds := cs.takeWhile Char.isDigit
  if ds.isEmpty then none else some (digitsVal ds)

/-- JavaScript `parseInt(string)` (radix-10 subset): skip whitespace,
optional sign, longest digit prefix, `NaN` if no digit. -/
def parseIntChars (cs : List Char) : Option ℤ :=
  let cs := cs.dropWhile Char.isWhitespace
  match cs with
  | '-' :: rest => (parseDigits rest).map fun n => -(n : ℤ)
  | '+' :: rest => (parseDigits rest).map fun n => (n : ℤ)
  | _ => (parseDigits cs).map fun n => (n : ℤ)

/-- Decimal body of `parseFloat`: digits, optional point and fraction
digits; the longest prefix is taken and trailing text is ignored. -/
def parseDec (cs : List Char) : Option ℚ :=
  let intDs := cs.takeWhile Char.isDigit
  let rest := cs.dropWhile Char.isDigit
  let fracDs :=
    match rest with
    | '.' :: r => r.takeWhile Char.isDigit
    | _ => []
  if intDs.isEmpty && fracDs.isEmpty then none
  else
    some (((digitsVal intDs * 10 ^ fracDs.length + digitsVal fracDs : ℕ) : ℚ) /
      ((10 ^ fracDs.length : ℕ) : ℚ))

/-- JavaScript `parseFloat(string)` on the decimal subset. -/
def parseFloatChars (cs : List Char) : Option ℚ :=
  let cs := cs.dropWhile Char.isWhitespace
  match cs with
  | '-' :: rest => (parseDec rest).map fun q => -q
  | '+' :: rest => parseDec rest
  | _ => parseDec cs

/-- JavaScript `parseFloat(v)`: numbers round-trip through their decimal
rendering unchanged (for the finite simple values modelled), strings are
parsed, `undefined`/`null` give `NaN` (`none`). -/
def jsParseFloat : JSVal → Option ℚ
  | .num q => some q
  | .str s => parseFloatChars s.data
  | _ => none

/-- JavaScript `parseInt(v)`: a number is rendered and re-parsed, which
truncates its integer part; strings are parsed. -/
def jsParseInt : JSVal → Option ℤ
  | .num q => some (qtrunc q)
  | .str s => parseIntChars s.data
  | _ => none

/-- JavaScript `String.prototype.trim` over the character list. -/
def trimChars (cs : List Char) : List Char :=
  ((cs.dropWhile Char.isWhitespace).reverse.dropWhile Char.isWhitespace).reverse

/-- Proleptic Gregorian leap-year predicate. -/
def isLeapYear (y : ℤ) : Bool :=
  (y % 4 = 0 && !(y % 100 = 0)) || y % 400 = 0

/-- Number of days in a month. -/
def daysInMonth (y m : ℤ) : ℤ :=
  if m = 2 then (if isLeapYear y then 29 else 28)
  else if m = 4 ∨ m = 6 ∨ m = 9 ∨ m = 11 then 30
  else 31

/-- Split a character list on every dash. -/
def splitOnDash : List Char → List (List Char)
  | [] => [[]]
  | c :: rest =>
    match splitOnDash rest with
    | [] => [[c]]
    | g :: gs => if c = '-' then [] :: g :: gs else (c :: g) :: gs

def allDigits (cs : List Char) : Bool := cs.all Char.isDigit

/-- The `new Date("YYYY-MM-DD")` ISO date-only parse: UTC midnight of
the denoted day, `Invalid Date` (`none`) when shape or component ranges
are violated.  Returns the epoch day number. -/
def parseYMD (s : String) : Option ℤ :=
  match splitOnDash s.data with
  | [ys, ms, ds] =>
    if ys.length = 4 && ms.length = 2 && ds.length = 2 &&
        allDigits ys && allDigits ms && allDigits ds then
      let y : ℤ := (digitsVal ys : ℕ)
      let m : ℤ := (digitsVal ms : ℕ)
      let d : ℤ := (digitsVal ds : ℕ)
      if 1 ≤ m && m ≤ 12 && 1 ≤ d && d ≤ daysInMonth y m then
        some (DateGenerator.daysFromCivil y m d)
      else none
    else none
  | _ => none

/-- The millisecond time value of `new Date(v)` (`none` = Invalid
Date): date strings parse per `parseYMD`, numbers are time values
clipped to the representable range, `null` coerces to `0`. -/
def jsDateValue : JSVal → Option ℤ
  | .str s => (parseYMD s).map fun d => d * DateGenerator.dayMs
  | .num q => if |q| ≤ 8640000000000000 then some (qtrunc q) else none
  | .null => some 0
  | .undefinedVal => none

/-- Embedding of `validateStationName`. -/
def validateStationName : JSVal → Bool
  | .str s => !(decide (s = "")) && decide (0 < (trimChars s.data).length)
  | _ => false

/-- Embedding of `validateFuelRate`. -/
def validateFuelRate (v : JSVal) : Option String :=
  if v = .undefinedVal ∨ v = .null ∨ v = .str "" then some "Fuel Rate is required"
  else
    match jsParseFloat v with
    | none => some "Fuel Rate must be a valid number"
    | some rate =>
      if rate ≤ 0 then some "Fuel Rate must be greater than 0" else none

/-- Embedding of `validateTemplate`. -/
def validateTemplate (v : JSVal) : Option String :=
  if falsy v then some "Template selection is required"
  else
    match jsParseInt v with
    | none => some "Template must be 1, 2, or 3"
    | some t =>
      if t = 1 ∨ t = 2 ∨ t = 3 then none else some "Template must be 1, 2, or 3"

/-- Embedding of `validateTotalAmount`. -/
def validateTotalAmount (v : JSVal) : Option String :=
  if v = .undefinedVal ∨ v = .null ∨ v = .str "" then some "Total Amount is required"
  else
    match jsParseFloat v with
    | none => some "Total Amount must be a valid number"
    | some amount =>
      if amount ≤ 0 then some "Total Amount must be greater than 0" else none

/-- Embedding of `validateNumberOfBills`, including the final
`num !== parseFloat(numberOfBills)` whole-number test. -/
def validateNumberOfBills (v : JSVal) : Option String :=
  if v = .undefinedVal ∨ v = .null ∨ v = .str "" then some "Number of Bills is required"
  else
    match jsParseInt v with
    | none => some "Number of Bills must be a valid integer"
    | some num =>
      if num < 1 then some "Number of Bills must be at least 1"
      else
        match jsParseFloat v with
        | none => some "Number of Bills must be a whole number"
        | some f =>
          if (num : ℚ) ≠ f then some "Number of Bills must be a whole number" else none

/-- Embedding of `validateMaxAmountPerBill`. -/
def validateMaxAmountPerBill (v : JSVal) : Option String :=
  if v = .undefinedVal ∨ v = .null ∨ v = .str "" then some "Max Amount Per Bill is required"
  else
    match jsParseFloat v with
    | none => some "Max Amount Per Bill must be a valid number"
    | some amount =>
      if amount ≤ 0 then some "Max Amount Per Bill must be greater than 0" else none

/-- Embedding of `validateDistributionPossible`.  A `NaN` operand makes
the JS comparison false, hence no message; the numeral interpolation of
the message text is approximated by `toString`. -/
def validateDistributionPossible (totalAmount numberOfBills maxAmountPerBill : JSVal) :
    Option String :=
  match jsParseFloat totalAmount, jsParseInt numberOfBills, jsParseFloat maxAmountPerBill with
  | some total, some count, some maxQ =>
    if maxQ * (count : ℚ) < total then
      some ("Max Amount Per Bill (" ++ toString maxQ ++ ") times Number of Bills (" ++
        toString count ++ ") is less than Total Amount (" ++ toString total ++
        "). Please increase Max Amount Per Bill or Number of Bills.")
    else none
  | _, _, _ => none

/-- Embedding of `validateDates` (the variant without the format
regex and round-trip checks). -/
def validateDates (sv ev : JSVal) : Option String :=
  if falsy sv then some "Start Date is required"
  else if falsy ev then some "End Date is required"
  else
    match jsDateValue sv with
    | none => some "Start Date is invalid"
    | some s =>
      match jsDateValue ev with
      | none => some "End Date is invalid"
      | some e =>
        if e < s then some "End Date cannot be before Start Date" else none

/-- The destructured request object of `validateBillGenerationData`. -/
structure BillData where
  stationName : JSVal
  fuelRate : JSVal
  template : JSVal
  totalAmount : JSVal
  numberOfBills : JSVal
  maxAmountPerBill : JSVal
  startDate : JSVal
  endDate : JSVal

structure ValidationResult where
  isValid : Bool
  errors : List String
  deriving DecidableEq

def optList : Option String → List String
  | none => []
  | some m => [m]

/-- Embedding of `validateBillGenerationData`: every check pushes its
message independently (the distribution feasibility check is gated on
the three numeric fields being individually valid). -/
def validateBillGenerationData (data : BillData) : ValidationResult :=
  let stationErrs :=
    if validateStationName data.stationName then []
    else ["Fuel Station Name is required and cannot be empty"]
  let fuelRateError := validateFuelRate data.fuelRate
  let templateError := validateTemplate data.template
  let totalAmountError := validateTotalAmount data.totalAmount
  let numberOfBillsError := validateNumberOfBills data.numberOfBills
  let maxAmountError := validateMaxAmountPerBill data.maxAmountPerBill
  let distributionErrs :=
    if totalAmountError = none ∧ numberOfBillsError = none ∧ maxAmountError = none then
      optList (validateDistributionPossible data.totalAmount data.numberOfBills
        data.maxAmountPerBill)
    else []
  let dateError := validateDates data.startDate data.endDate
  let errors :=
    stationErrs ++ optList fuelRateError ++ optList templateError ++
    optList totalAmountError ++ optList numberOfBillsError ++
    optList maxAmountError ++ distributionErrs ++ optList dateError
  ⟨errors.isEmpty, errors⟩

end Validator

namespace PdfMerger

/-
  Embedding of `src/utils/pdfMerger.js`.  A PDF document is its page
  sequence (pages abstract, type `α`); a file on disk is `Option (List α)`
  with `none` for bytes `PDFDocument.load` rejects.  `mergePDFs` creates
  an empty output document, then for each input in order copies all its
  pages and appends them; saving the output cannot fail, so the result
  models the written file as the final page sequence.
-/

inductive MergeErr where
  | sourceUnreadable (index : ℕ)
  | noFilesFound
  deriving DecidableEq, Repr

/-- The `for (let i = 0; …)` loop of `mergePDFs`: load input `i`, copy
its pages onto the accumulated output. -/
def mergeLoop {α : Type} : ℕ → List (Option (List α)) → List α →
    Except MergeErr (List α)
  | _, [], merged => .ok merged
  | i, none :: _, _ => .error (.sourceUnreadable i)
  | i, some pages :: rest, merged => mergeLoop (i + 1) rest (merged ++ pages)

/-- Embedding of `mergePDFs(pdfPaths, outputPath)`: the page sequence of
the merged output document, or the wrapped load failure. -/
def mergePDFs {α : Type} (pdfDocs : List (Option (List α))) :
    Except MergeErr (List α) :=
  mergeLoop 0 pdfDocs []

/-- String-lexicographic order on character lists (UTF-16 code-unit
comparison of the default `Array.prototype.sort`). -/
def charListLe : List Char → List Char → Bool
  | [], _ => true
  | _ :: _, [] => false
  | a :: as, b :: bs =>
    if a < b then true
    else if b < a then false
    else charListLe as bs

/-- Substring test for `file.includes(pattern)`. -/
def strIncludes (pat : List Char) : List Char → Bool
  | [] => pat.isEmpty
  | c :: rest => pat.isPrefixOf (c :: rest) || strIncludes pat rest

/-- The filter of `mergePDFsInDirectory`:
`file.includes(pattern) && file.endsWith(".pdf")`. -/
def fileMatches (pattern fileName : String) : Bool :=
  strIncludes pattern.data fileName.data && ".pdf".data.isSuffixOf fileName.data

/-- Embedding of `mergePDFsInDirectory(directory, pattern,
outputFileName)`.  The directory is a name-to-content listing; matching
names are sorted ascending (stable sort modelled by insertion sort) and
their contents merged. -/
def mergePDFsInDirectory {α : Type} (directory : List (String × Option (List α)))
    (pattern : String) : Except MergeErr (List α) :=
  let files := directory.filter fun entry => fileMatches pattern entry.1
  if files.isEmpty then .error .noFilesFound
  else
    let sorted := List.insertionSort
      (fun a b : String × Option (List α) => charListLe a.1.data b.1.data = true) files
    mergePDFs (sorted.map Prod.snd)

end PdfMerger


/-
  Specification-side predicates used by the claim statements.
-/

/-- The slot date lies in the requested range. -/
def SlotInRange (startDay endDay : ℤ) (x : DateGenerator.Slot) : Prop :=
  startDay ≤ x.day ∧ x.day ≤ endDay

/-- The slot time lies in the business window [06:00, 22:00). -/
def SlotTimeOk (x : DateGenerator.Slot) : Prop :=
  6 ≤ x.hour ∧ x.hour ≤ 21 ∧ 0 ≤ x.minute ∧ x.minute ≤ 59

/-- Two slots carry distinct dates at least `m` days apart. -/
def SlotSpaced (m : ℤ) (a b : DateGenerator.Slot) : Prop :=
  a.day ≠ b.day ∧ m ≤ |a.day - b.day|

/-
  General lemmas about the JS rounding helpers, followed by the
  verification of the individual claims.
-/

theorem cents_round2 (q : ℚ) : Cents (round2 q) := ⟨jsRound (q * 100), rfl⟩

theorem cents_add {a b : ℚ} (ha : Cents a) (hb : Cents b) : Cents (a + b) := by
  obtain ⟨m, rfl⟩ := ha
  obtain ⟨n, rfl⟩ := hb
  exact ⟨m + n, by push_cast; ring⟩

theorem cents_sub {a b : ℚ} (ha : Cents a) (hb : Cents b) : Cents (a - b) := by
  obtain ⟨m, rfl⟩ := ha
  obtain ⟨n, rfl⟩ := hb
  exact ⟨m - n, by push_cast; ring⟩

theorem cents_natMul {a : ℚ} (n : ℕ) (ha : Cents a) : Cents ((n : ℚ) * a) := by
  obtain ⟨m, rfl⟩ := ha
  exact ⟨n * m, by push_cast; ring⟩

theorem cents_min {a b : ℚ} (ha : Cents a) (hb : Cents b) : Cents (min a b) := by
  rcases min_cases a b with ⟨h, _⟩ | ⟨h, _⟩ <;> rw [h] <;> assumption

theorem cents_max {a b : ℚ} (ha : Cents a) (hb : Cents b) : Cents (max a b) := by
  rcases max_cases a b with ⟨h, _⟩ | ⟨h, _⟩ <;> rw [h] <;> assumption

theorem cents_hundredth : Cents (1/100 : ℚ) := ⟨1, by norm_num⟩

theorem round2_eq_self {q : ℚ} (h : Cents q) : round2 q = q := by
  obtain ⟨m, rfl⟩ := h
  have h1 : ((m : ℚ) / 100) * 100 = (m : ℚ) := by field_simp
  have h2 : ⌊(m : ℚ) + 1/2⌋ = m := by
    have : ⌊(1/2 : ℚ)⌋ = 0 := by norm_num
    rw [Int.floor_int_add, this, add_zero]
  rw [round2, jsRound, h1, h2]

theorem round2_mono {a b : ℚ} (h : a ≤ b) : round2 a ≤ round2 b := by
  have h1 : jsRound (a * 100) ≤ jsRound (b * 100) := by
    apply Int.floor_le_floor
    have : a * 100 ≤ b * 100 := by nlinarith
    linarith
  have h2 : ((jsRound (a * 100) : ℤ) : ℚ) ≤ ((jsRound (b * 100) : ℤ) : ℚ) :=
    Int.cast_le.2 h1
  rw [round2, round2]
  linarith

theorem round2_add_cents {c : ℚ} (x : ℚ) (h : Cents c) :
    round2 (c + x) = c + round2 x := by
  obtain ⟨m, rfl⟩ := h
  have h1 : ((m : ℚ) / 100 + x) * 100 = (m : ℚ) + x * 100 := by
    field_simp
  have h2 : ⌊(m : ℚ) + x * 100 + 1/2⌋ = m + ⌊x * 100 + 1/2⌋ := by
    rw [add_assoc, Int.floor_int_add]
  rw [round2, jsRound, h1, h2, round2, jsRound]
  push_cast
  ring


theorem cents_zero : Cents 0 := ⟨0, by norm_num⟩

theorem cents_sum : ∀ {l : List ℚ}, (∀ a ∈ l, Cents a) → Cents l.sum
  | [], _ => by simpa using cents_zero
  | a :: rest, h => by
    rw [List.sum_cons]
    exact cents_add (h a (by simp)) (cents_sum fun b hb => h b (by simp [hb]))

/-- The constant-zero draw stream used for concrete evaluations. -/
def rngZero : ℕ → ℚ := fun _ => 0

namespace AmountDistributor

theorem distLoop_cents (maxA : ℚ) (rng : ℕ → ℚ) :
    ∀ (j i : ℕ) (R : ℚ), ∀ a ∈ (distLoop maxA rng j i R).1, Cents a := by
  intro j
  induction j with
  | zero => intro i R a ha; simp [distLoop] at ha
  | succ j ih =>
    intro i R a ha
    simp only [distLoop, List.mem_cons] at ha
    rcases ha with rfl | ha
    · simp only [stepAmount]; exact cents_round2 _
    · exact ih (i + 1) _ a ha

theorem distLoop_rem (maxA : ℚ) (rng : ℕ → ℚ) :
    ∀ (j i : ℕ) (R : ℚ),
      (distLoop maxA rng j i R).2 = R - (distLoop maxA rng j i R).1.sum := by
  intro j
  induction j with
  | zero => intro i R; simp [distLoop]
  | succ j ih =>
    intro i R
    simp only [distLoop, List.sum_cons]
    rw [ih (i + 1)]
    ring

theorem checkAmounts_none_iff (maxA : ℚ) :
    ∀ (l : List ℚ) (i : ℕ),
      checkAmounts maxA i l = none ↔ ∀ a ∈ l, 0 < a ∧ a ≤ maxA := by
  intro l
  induction l with
  | nil => intro i; simp [checkAmounts]
  | cons a rest ih =>
    intro i
    simp only [checkAmounts]
    constructor
    · intro h
      split_ifs at h with h1 h2
      intro b hb
      rcases List.mem_cons.1 hb with rfl | hb
      · exact ⟨lt_of_not_le h1, le_of_not_lt h2⟩
      · exact ((ih (i + 1)).1 h) b hb
    · intro h
      have ha := h a (by simp)
      rw [if_neg (not_le.2 ha.1), if_neg (not_lt.2 ha.2)]
      exact (ih (i + 1)).2 fun b hb => h b (by simp [hb])

theorem roundedSum_eq (T maxA : ℚ) (n : ℕ) (rng : ℕ → ℚ) :
    round2 (buildAmounts T n maxA rng).sum = round2 T := by
  have hc : Cents (distLoop maxA rng (n - 1) 0 T).1.sum :=
    cents_sum fun a ha => distLoop_cents maxA rng (n - 1) 0 T a ha
  have hrem := distLoop_rem maxA rng (n - 1) 0 T
  have hsum : (buildAmounts T n maxA rng).sum =
      (distLoop maxA rng (n - 1) 0 T).1.sum +
        round2 (T - (distLoop maxA rng (n - 1) 0 T).1.sum) := by
    rw [buildAmounts, List.sum_append, List.sum_cons, List.sum_nil, add_zero, hrem]
  rw [hsum, round2_add_cents _ hc, round2_eq_self (cents_round2 _)]
  have hT : T = (distLoop maxA rng (n - 1) 0 T).1.sum +
      (T - (distLoop maxA rng (n - 1) 0 T).1.sum) := by ring
  conv_rhs => rw [hT]
  rw [round2_add_cents _ hc]

theorem finalize_of_checked (T maxA : ℚ) (n : ℕ) (amounts : List ℚ)
    (hchk : checkAmounts maxA 0 amounts = none)
    (hsum : round2 amounts.sum = round2 T) :
    finalize T n maxA amounts = .ok amounts := by
  rw [finalize, hchk]
  simp only [hsum, sub_self, abs_zero]
  norm_num


theorem stepAmount_spec (maxA R r : ℚ) (k : ℕ) (hmaxC : Cents maxA)
    (hmax1 : 1/100 ≤ maxA) (hRC : Cents R) (hr0 : 0 ≤ r) (hr1 : r < 1)
    (hRlo : ((k : ℚ) + 1) * (1/100) ≤ R) (hRhi : R ≤ ((k : ℚ) + 1) * maxA) :
    1/100 ≤ stepAmount maxA k R r ∧ stepAmount maxA k R r ≤ maxA ∧
    (k : ℚ) * (1/100) ≤ R - stepAmount maxA k R r ∧
    R - stepAmount maxA k R r ≤ (k : ℚ) * maxA := by
  have hk0 : (0 : ℚ) ≤ (k : ℚ) := by positivity
  have hcmin : Cents ((k : ℚ) * minAmountPerBill) := by
    simp only [minAmountPerBill]
    exact cents_natMul _ cents_hundredth
  have hcmax : Cents ((k : ℚ) * maxA) := cents_natMul _ hmaxC
  set u : ℚ := min maxA (R - (k : ℚ) * minAmountPerBill) with hu
  set l : ℚ := max minAmountPerBill (R - (k : ℚ) * maxA) with hl
  have hcu : Cents u := cents_min hmaxC (cents_sub hRC hcmin)
  have hcl : Cents l := by
    refine cents_max ?_ (cents_sub hRC hcmax)
    simp only [minAmountPerBill]
    exact cents_hundredth
  have hbmul : (k : ℚ) * minAmountPerBill ≤ (k : ℚ) * maxA := by
    apply mul_le_mul_of_nonneg_left _ hk0
    simp only [minAmountPerBill]
    exact hmax1
  have hmin_val : minAmountPerBill = 1/100 := rfl
  have hlu : l ≤ u := by
    rw [hl, hu, hmin_val]
    rw [hmin_val] at hbmul
    refine max_le (le_min hmax1 (by linarith)) (le_min (by linarith) (by linarith))
  have hstep : stepAmount maxA k R r = round2 (l + r * (u - l)) := by
    simp only [stepAmount]
  have hraw1 : l ≤ l + r * (u - l) := by nlinarith
  have hraw2 : l + r * (u - l) ≤ u := by nlinarith
  have ha_l : l ≤ stepAmount maxA k R r := by
    rw [hstep]
    calc l = round2 l := (round2_eq_self hcl).symm
      _ ≤ round2 (l + r * (u - l)) := round2_mono hraw1
  have ha_u : stepAmount maxA k R r ≤ u := by
    rw [hstep]
    calc round2 (l + r * (u - l)) ≤ round2 u := round2_mono hraw2
      _ = u := round2_eq_self hcu
  have hl_min : minAmountPerBill ≤ l := le_max_left _ _
  have hl_ge : R - (k : ℚ) * maxA ≤ l := le_max_right _ _
  have hu_max : u ≤ maxA := min_le_left _ _
  have hu_le : u ≤ R - (k : ℚ) * minAmountPerBill := min_le_right _ _
  rw [hmin_val] at hl_min
  rw [hmin_val] at hu_le
  exact ⟨by linarith, by linarith, by linarith, by linarith⟩

theorem distLoop_spec (maxA : ℚ) (rng : ℕ → ℚ) (hmaxC : Cents maxA)
    (hmax1 : 1/100 ≤ maxA) (hrng : ∀ k, 0 ≤ rng k ∧ rng k < 1) :
    ∀ (j i : ℕ) (R : ℚ), Cents R →
      ((j : ℚ) + 1) * (1/100) ≤ R → R ≤ ((j : ℚ) + 1) * maxA →
      (distLoop maxA rng j i R).1.length = j ∧
      (∀ a ∈ (distLoop maxA rng j i R).1, 1/100 ≤ a ∧ a ≤ maxA) ∧
      Cents (distLoop maxA rng j i R).2 ∧
      1/100 ≤ (distLoop maxA rng j i R).2 ∧
      (distLoop maxA rng j i R).2 ≤ maxA := by
  intro j
  induction j with
  | zero =>
    intro i R hRC hRlo hRhi
    norm_num at hRlo hRhi
    exact ⟨by simp [distLoop], by simp [distLoop], by simpa [distLoop] using hRC,
      by simpa [distLoop] using hRlo, by simpa [distLoop] using hRhi⟩
  | succ j ih =>
    intro i R hRC hRlo hRhi
    have hcast : (((j + 1 : ℕ)) : ℚ) = (j : ℚ) + 1 := by push_cast; ring
    have hRlo' : (((j + 1 : ℕ) : ℚ) + 1) * (1/100) ≤ R := by
      rw [hcast]; push_cast at hRlo; linarith
    have hRhi' : R ≤ (((j + 1 : ℕ) : ℚ) + 1) * maxA := by
      rw [hcast]; push_cast at hRhi; nlinarith
    obtain ⟨hs1, hs2, hs3, hs4⟩ := stepAmount_spec maxA R (rng i) (j + 1) hmaxC
      hmax1 hRC (hrng i).1 (hrng i).2 hRlo' hRhi'
    have hR'C : Cents (R - stepAmount maxA (j + 1) R (rng i)) :=
      cents_sub hRC (by simp only [stepAmount]; exact cents_round2 _)
    have hR'lo : ((j : ℚ) + 1) * (1/100) ≤ R - stepAmount maxA (j + 1) R (rng i) := by
      rw [hcast] at hs3; linarith
    have hR'hi : R - stepAmount maxA (j + 1) R (rng i) ≤ ((j : ℚ) + 1) * maxA := by
      rw [hcast] at hs4; linarith
    obtain ⟨ihlen, ihmem, ihC, ihlo, ihhi⟩ :=
      ih (i + 1) (R - stepAmount maxA (j + 1) R (rng i)) hR'C hR'lo hR'hi
    have hunfold : distLoop maxA rng (j + 1) i R =
        (stepAmount maxA (j + 1) R (rng i) ::
          (distLoop maxA rng j (i + 1) (R - stepAmount maxA (j + 1) R (rng i))).1,
         (distLoop maxA rng j (i + 1) (R - stepAmount maxA (j + 1) R (rng i))).2) := rfl
    rw [hunfold]
    refine ⟨by simp [ihlen], ?_, ihC, ihlo, ihhi⟩
    intro a ha
    rcases List.mem_cons.1 ha with rfl | ha
    · exact ⟨hs1, hs2⟩
    · exact ihmem a ha

theorem finalize_ok_elim (T maxA : ℚ) (n : ℕ) (amounts asList : List ℚ)
    (hsum : round2 amounts.sum = round2 T)
    (h : finalize T n maxA amounts = .ok asList) :
    asList = amounts ∧ checkAmounts maxA 0 amounts = none := by
  rcases hc : checkAmounts maxA 0 amounts with _ | e
  · unfold finalize at h
    rw [hc] at h
    simp only [hsum, sub_self, abs_zero] at h
    rw [if_neg (by norm_num : ¬ (1/100 : ℚ) < (0 : ℚ))] at h
    exact ⟨(Except.ok.inj h).symm, rfl⟩
  · unfold finalize at h
    rw [hc] at h
    exact absurd h (by simp)

end AmountDistributor

/-- Claim C1 (counterexample): with totalAmount = 0.01, numberOfBills =
2, maxAmountPerBill = 0.01 every stated precondition of the claim holds
(total > 0, count ≥ 1, max > 0, max × count = 0.02 ≥ total), yet
`distributeAmount` does not return a sequence: the last bill receives
the rounded remainder 0, and the validation loop throws (bill 2 not
positive). -/
theorem claim_C1_counterexample :
    AmountDistributor.distributeAmount (1/100) 2 (1/100) rngZero =
      .error (.notPositive 1) := by
  norm_num [AmountDistributor.distributeAmount, AmountDistributor.buildAmounts,
    AmountDistributor.finalize, AmountDistributor.distLoop,
    AmountDistributor.stepAmount, AmountDistributor.checkAmounts,
    AmountDistributor.minAmountPerBill, round2, jsRound, rngZero,
    min_def, max_def]

/-- Claim C1 (amended): under the stated preconditions strengthened by
the minor-unit feasibility condition `count × 0.01 ≤ total` (forced by
the counterexample) — with the two monetary inputs being exact
two-decimal values as the MonetaryAmount data model prescribes —
`distributeAmount(total, count, maxPerUnit)` returns exactly `count`
amounts, each strictly positive and at most `maxPerUnit`, whose sum is
within 0.01 of `total` (it is in fact exact). -/
theorem claim_C1 (T maxA : ℚ) (n : ℕ) (rng : ℕ → ℚ)
    (hTC : Cents T) (hmaxC : Cents maxA) (hT0 : 0 < T) (hn : 1 ≤ n)
    (hmax0 : 0 < maxA) (hfeas : T ≤ maxA * (n : ℚ))
    (hmin : (n : ℚ) * (1/100) ≤ T) (hrng : ∀ k, 0 ≤ rng k ∧ rng k < 1) :
    ∃ amounts, AmountDistributor.distributeAmount T n maxA rng = .ok amounts ∧
      amounts.length = n ∧ (∀ a ∈ amounts, 0 < a ∧ a ≤ maxA) ∧
      |amounts.sum - T| ≤ 1/100 := by
  have hnq : (0 : ℚ) < (n : ℚ) := by
    have : (1 : ℚ) ≤ (n : ℚ) := by exact_mod_cast hn
    linarith
  have hmax1 : 1/100 ≤ maxA := by nlinarith
  have hcast : ((n - 1 : ℕ) : ℚ) = (n : ℚ) - 1 := by
    have : ((n - 1 : ℕ) : ℚ) = ((n : ℕ) : ℚ) - ((1 : ℕ) : ℚ) := Nat.cast_sub hn
    simpa using this
  have hlo : (((n - 1 : ℕ) : ℚ) + 1) * (1/100) ≤ T := by
    rw [hcast]; ring_nf; ring_nf at hmin; linarith
  have hhi : T ≤ (((n - 1 : ℕ) : ℚ) + 1) * maxA := by
    rw [hcast]; ring_nf; ring_nf at hfeas; linarith
  obtain ⟨hlen, hmem, hC, hrlo, hrhi⟩ :=
    AmountDistributor.distLoop_spec maxA rng hmaxC hmax1 hrng (n - 1) 0 T hTC hlo hhi
  have hrem := AmountDistributor.distLoop_rem maxA rng (n - 1) 0 T
  set L := AmountDistributor.distLoop maxA rng (n - 1) 0 T with hL
  have hlast : round2 L.2 = L.2 := round2_eq_self hC
  have hamounts : AmountDistributor.buildAmounts T n maxA rng = L.1 ++ [round2 L.2] := rfl
  have hmemall : ∀ a ∈ AmountDistributor.buildAmounts T n maxA rng, 0 < a ∧ a ≤ maxA := by
    intro a ha
    rw [hamounts] at ha
    rcases List.mem_append.1 ha with ha | ha
    · obtain ⟨h1, h2⟩ := hmem a ha
      exact ⟨by linarith, h2⟩
    · have : a = round2 L.2 := by simpa using ha
      rw [this, hlast]
      exact ⟨by linarith, hrhi⟩
  have hchk : AmountDistributor.checkAmounts maxA 0
      (AmountDistributor.buildAmounts T n maxA rng) = none :=
    (AmountDistributor.checkAmounts_none_iff maxA _ 0).2 hmemall
  have hfin : AmountDistributor.finalize T n maxA
      (AmountDistributor.buildAmounts T n maxA rng) =
      .ok (AmountDistributor.buildAmounts T n maxA rng) :=
    AmountDistributor.finalize_of_checked T maxA n _ hchk
      (AmountDistributor.roundedSum_eq T maxA n rng)
  refine ⟨AmountDistributor.buildAmounts T n maxA rng, ?_, ?_, hmemall, ?_⟩
  · rw [AmountDistributor.distributeAmount,
      if_neg (not_le.2 hT0), if_neg (by omega : ¬ n < 1),
      if_neg (not_le.2 hmax0), if_neg (not_lt.2 hfeas)]
    exact hfin
  · rw [hamounts]
    simp [hlen]
    omega
  · have hsum : (AmountDistributor.buildAmounts T n maxA rng).sum = T := by
      rw [hamounts, List.sum_append, List.sum_cons, List.sum_nil, add_zero, hlast, hrem]
      ring
    rw [hsum]
    simp

/-- Claim C1 (witness at total = 100, count = 3, maxPerUnit = 40 with
the all-zero draw stream). -/
theorem claim_C1_witness :
    ∃ amounts, AmountDistributor.distributeAmount 100 3 40 rngZero = .ok amounts ∧
      amounts.length = 3 ∧ (∀ a ∈ amounts, 0 < a ∧ a ≤ 40) ∧
      |amounts.sum - 100| ≤ 1/100 :=
  claim_C1 100 40 3 rngZero ⟨10000, by norm_num⟩ ⟨4000, by norm_num⟩
    (by norm_num) (by norm_num) (by norm_num) (by push_cast; norm_num)
    (by push_cast; norm_num) (fun k => ⟨le_rfl, by norm_num [rngZero]⟩)

/-- Claim C3: every amounts list `distributeAmount` actually returns has
all elements strictly positive and at most `maxPerUnit`.  In the exact
arithmetic of the model the rounded sum of the generated amounts always
equals the rounded total, so the residual-correction branch never fires
and the returned list is exactly the one the validation loop checked. -/
theorem claim_C3 (T maxA : ℚ) (n : ℕ) (rng : ℕ → ℚ) (amounts : List ℚ)
    (h : AmountDistributor.distributeAmount T n maxA rng = .ok amounts) :
    ∀ a ∈ amounts, 0 < a ∧ a ≤ maxA := by
  rw [AmountDistributor.distributeAmount] at h
  split_ifs at h
  obtain ⟨heq, hchk⟩ := AmountDistributor.finalize_ok_elim T maxA n _ amounts
    (AmountDistributor.roundedSum_eq T maxA n rng) h
  rw [heq]
  exact (AmountDistributor.checkAmounts_none_iff maxA _ 0).1 hchk

/-- Claim C3 (witness: a call that returns, at total = 1, count = 1,
max = 1, whose single returned amount is indeed in (0, 1]). -/
theorem claim_C3_witness : 0 < (1 : ℚ) ∧ (1 : ℚ) ≤ 1 :=
  claim_C3 1 1 1 rngZero [1]
    (by norm_num [AmountDistributor.distributeAmount, AmountDistributor.buildAmounts,
      AmountDistributor.finalize, AmountDistributor.distLoop,
      AmountDistributor.checkAmounts, round2, jsRound, rngZero])
    1 (by simp)

theorem floor_le_qtrunc (q : ℚ) : ⌊q⌋ ≤ qtrunc q := by
  rw [qtrunc]
  split_ifs with h
  · exact le_refl _
  · rw [Int.floor_neg, neg_neg]
    exact Int.floor_le_ceil q

theorem qtrunc_le_ceil (q : ℚ) : qtrunc q ≤ ⌈q⌉ := by
  rw [qtrunc]
  split_ifs with h
  · exact Int.floor_le_ceil q
  · rw [Int.floor_neg, neg_neg]

theorem qtrunc_bounds {a b : ℤ} {q : ℚ} (ha : (a : ℚ) ≤ q) (hb : q ≤ (b : ℚ)) :
    a ≤ qtrunc q ∧ qtrunc q ≤ b :=
  ⟨le_trans (Int.le_floor.2 ha) (floor_le_qtrunc q),
   le_trans (qtrunc_le_ceil q) (Int.ceil_le.2 hb)⟩

namespace DateGenerator

theorem dayMs_pos : (0 : ℤ) < dayMs := by norm_num [dayMs]

theorem int_fdiv_mono {a b c : ℤ} (hab : a ≤ b) (hc : 0 < c) :
    a.fdiv c ≤ b.fdiv c := by
  rw [Int.fdiv_eq_ediv _ (le_of_lt hc), Int.fdiv_eq_ediv _ (le_of_lt hc)]
  exact Int.ediv_le_ediv hc hab

theorem generateRandomDay_bounds (off s e : ℤ) (r : ℚ) (hoff : 0 ≤ off)
    (hoffd : off < dayMs) (hse : s ≤ e) (hr0 : 0 ≤ r) (hr1 : r ≤ 1) :
    s ≤ generateRandomDay off s e r ∧ generateRandomDay off s e r ≤ e := by
  have hd := dayMs_pos
  have hΔ : ((s * dayMs : ℤ) : ℚ) ≤ ((e * dayMs : ℤ) : ℚ) := by
    exact_mod_cast mul_le_mul_of_nonneg_right hse (le_of_lt hd)
  have hts_lo : ((s * dayMs : ℤ) : ℚ) ≤
      ((s * dayMs : ℤ) : ℚ) + r * (((e * dayMs : ℤ) : ℚ) - ((s * dayMs : ℤ) : ℚ)) := by
    nlinarith
  have hts_hi : ((s * dayMs : ℤ) : ℚ) + r * (((e * dayMs : ℤ) : ℚ) - ((s * dayMs : ℤ) : ℚ)) ≤
      ((e * dayMs : ℤ) : ℚ) := by
    nlinarith
  obtain ⟨h1, h2⟩ := qtrunc_bounds hts_lo hts_hi
  rw [generateRandomDay]
  constructor
  · have hnum : s * dayMs ≤ qtrunc (((s * dayMs : ℤ) : ℚ) +
        r * (((e * dayMs : ℤ) : ℚ) - ((s * dayMs : ℤ) : ℚ))) + off := by linarith
    calc s = (s * dayMs).fdiv dayMs := (Int.mul_fdiv_cancel s (ne_of_gt hd)).symm
      _ ≤ _ := int_fdiv_mono hnum hd
  · have hnum : qtrunc (((s * dayMs : ℤ) : ℚ) +
        r * (((e * dayMs : ℤ) : ℚ) - ((s * dayMs : ℤ) : ℚ))) + off ≤
        e * dayMs + (dayMs - 1) := by linarith
    have hupper : (e * dayMs + (dayMs - 1)).fdiv dayMs = e := by
      rw [Int.fdiv_eq_ediv _ (le_of_lt hd), add_comm,
        Int.add_mul_ediv_right _ _ (ne_of_gt hd),
        Int.ediv_eq_zero_of_lt (by linarith) (by linarith), zero_add]
    calc (qtrunc _ + off).fdiv dayMs ≤ (e * dayMs + (dayMs - 1)).fdiv dayMs :=
        int_fdiv_mono hnum hd
      _ = e := hupper

theorem randomHour_bounds (r : ℚ) (h0 : 0 ≤ r) (h1 : r < 1) :
    6 ≤ randomHour r ∧ randomHour r ≤ 21 := by
  rw [randomHour]
  have hlo : (0 : ℤ) ≤ ⌊r * 16⌋ := Int.floor_nonneg.2 (by positivity)
  have hhi : ⌊r * 16⌋ < 16 := Int.floor_lt.2 (by push_cast; nlinarith)
  omega

theorem randomMinute_bounds (r : ℚ) (h0 : 0 ≤ r) (h1 : r < 1) :
    0 ≤ randomMinute r ∧ randomMinute r ≤ 59 := by
  rw [randomMinute]
  have hlo : (0 : ℤ) ≤ ⌊r * 60⌋ := Int.floor_nonneg.2 (by positivity)
  have hhi : ⌊r * 60⌋ < 60 := Int.floor_lt.2 (by push_cast; nlinarith)
  omega

theorem totalDays_eq (s e : ℤ) : (e * dayMs - s * dayMs).fdiv dayMs = e - s := by
  have hd : dayMs ≠ 0 := ne_of_gt dayMs_pos
  calc (e * dayMs - s * dayMs).fdiv dayMs = ((e - s) * dayMs).fdiv dayMs := by
        ring_nf
    _ = e - s := Int.mul_fdiv_cancel _ hd

theorem spaced_of_guard {rd m : ℤ} {acc : List Slot} {d : Slot}
    (hd : d ∈ acc) (hsp : isDateProperlySpaced rd acc m = true) :
    m ≤ |rd - d.day| := by
  rw [isDateProperlySpaced, List.all_eq_true] at hsp
  have := hsp d hd
  simp only [Bool.not_eq_true', decide_eq_false_iff_not, not_lt] at this
  have habs : |rd * dayMs - d.day * dayMs| = |rd - d.day| * dayMs := by
    rw [← sub_mul, abs_mul, abs_of_pos dayMs_pos]
  rw [habs] at this
  exact le_of_mul_le_mul_right this dayMs_pos

theorem genLoop_inv (off s e m count : ℤ) (rng : ℕ → ℚ)
    (hoff : 0 ≤ off) (hoffd : off < dayMs) (hse : s ≤ e)
    (hrng : ∀ k, 0 ≤ rng k ∧ rng k < 1) :
    ∀ (fuel k : ℕ) (acc : List Slot),
      (∀ x ∈ acc, SlotInRange s e x ∧ SlotTimeOk x) →
      acc.Pairwise (SlotSpaced m) →
      (acc.length : ℤ) ≤ count →
      (∀ x ∈ (genLoop off s e m count rng fuel k acc).1,
          SlotInRange s e x ∧ SlotTimeOk x) ∧
      (genLoop off s e m count rng fuel k acc).1.Pairwise (SlotSpaced m) ∧
      ((genLoop off s e m count rng fuel k acc).1.length : ℤ) ≤ count := by
  intro fuel
  induction fuel with
  | zero =>
    intro k acc h1 h2 h3
    exact ⟨by simpa [genLoop] using h1, by simpa [genLoop] using h2,
      by simpa [genLoop] using h3⟩
  | succ fuel ih =>
    intro k acc h1 h2 h3
    by_cases hlen : (acc.length : ℤ) < count
    · simp only [genLoop]
      rw [if_pos hlen]
      by_cases hg : ((acc.all fun d => !(decide (d.day = generateRandomDay off s e (rng k)))) &&
          isDateProperlySpaced (generateRandomDay off s e (rng k)) acc m) = true
      · rw [if_pos hg]
        dsimp only
        obtain ⟨hdup, hsp⟩ := (Bool.and_eq_true _ _).mp hg
        have hdup' : ∀ d ∈ acc, d.day ≠ generateRandomDay off s e (rng k) := by
          intro d hd
          have := List.all_eq_true.1 hdup d hd
          simpa using this
        have hday := generateRandomDay_bounds off s e (rng k) hoff hoffd hse
          (hrng k).1 (le_of_lt (hrng k).2)
        have hhour := randomHour_bounds (rng (k + 1)) (hrng (k + 1)).1 (hrng (k + 1)).2
        have hminute := randomMinute_bounds (rng (k + 2)) (hrng (k + 2)).1 (hrng (k + 2)).2
        have h1' : ∀ x ∈ acc ++ [(⟨generateRandomDay off s e (rng k),
            randomHour (rng (k + 1)), randomMinute (rng (k + 2))⟩ : Slot)],
            SlotInRange s e x ∧ SlotTimeOk x := by
          intro x hx
          rcases List.mem_append.1 hx with hx | hx
          · exact h1 x hx
          · have hxe : x = (⟨generateRandomDay off s e (rng k),
                randomHour (rng (k + 1)), randomMinute (rng (k + 2))⟩ : Slot) := by
              simpa using hx
            rw [hxe]
            exact ⟨⟨hday.1, hday.2⟩, hhour.1, hhour.2, hminute.1, hminute.2⟩
        have h2' : (acc ++ [(⟨generateRandomDay off s e (rng k),
            randomHour (rng (k + 1)), randomMinute (rng (k + 2))⟩ : Slot)]).Pairwise
            (SlotSpaced m) := by
          rw [List.pairwise_append]
          refine ⟨h2, List.pairwise_singleton _ _, ?_⟩
          intro a ha b hb
          have hbe : b = (⟨generateRandomDay off s e (rng k),
              randomHour (rng (k + 1)), randomMinute (rng (k + 2))⟩ : Slot) := by
            simpa using hb
          rw [hbe]
          refine ⟨hdup' a ha, ?_⟩
          rw [abs_sub_comm]
          exact spaced_of_guard ha hsp
        have h3' : (((acc ++ [(⟨generateRandomDay off s e (rng k),
            randomHour (rng (k + 1)), randomMinute (rng (k + 2))⟩ : Slot)]).length : ℤ)) ≤
            count := by
          simp only [List.length_append, List.length_singleton]
          push_cast
          omega
        exact ih (k + 3) _ h1' h2' h3'
      · rw [if_neg hg]
        dsimp only
        exact ih (k + 1) acc h1 h2 h3
    · simp only [genLoop]
      rw [if_neg hlen]
      exact ⟨h1, h2, h3⟩

theorem genLoop_attempts (off s e m count : ℤ) (rng : ℕ → ℚ) :
    ∀ (fuel k : ℕ) (acc : List Slot),
      (genLoop off s e m count rng fuel k acc).2 ≤ fuel := by
  intro fuel
  induction fuel with
  | zero => intro k acc; simp [genLoop]
  | succ fuel ih =>
    intro k acc
    simp only [genLoop]
    split_ifs with h1 h2
    · dsimp only
      have := ih (k + 3) (acc ++ [(⟨generateRandomDay off s e (rng k),
        randomHour (rng (k + 1)), randomMinute (rng (k + 2))⟩ : Slot)])
      omega
    · dsimp only
      have := ih (k + 1) acc
      omega
    · simp

end DateGenerator

theorem qtrunc_intCast (n : ℤ) : qtrunc ((n : ℤ) : ℚ) = n := by
  rw [qtrunc]
  split_ifs with h
  · exact Int.floor_intCast n
  · rw [← Int.cast_neg, Int.floor_intCast]
    ring

namespace DateGenerator

theorem generateUniqueDates_eq (off count s e m : ℤ) (rng : ℕ → ℚ)
    (hse : s ≤ e) (hfeas : (count - 1) * m ≤ e - s) :
    generateUniqueDates off count s e m rng =
      if (((genLoop off s e m count rng (count * 100).toNat 0 []).1.length : ℤ) < count) then
        .error .exhausted
      else
        .ok (List.insertionSort slotLe
          (genLoop off s e m count rng (count * 100).toNat 0 []).1) := by
  simp only [generateUniqueDates, generateUniqueDatesRun, totalDays_eq]
  rw [if_neg (not_lt.2 hse), if_neg (not_lt.2 hfeas)]
  by_cases hl : (((genLoop off s e m count rng (count * 100).toNat 0 []).1.length : ℤ) < count)
  · rw [if_pos hl, if_pos hl]
  · rw [if_neg hl, if_neg hl]

theorem genLoop_full (off s e m count : ℤ) (rng : ℕ → ℚ) (fuel k : ℕ)
    (acc : List Slot) (h : ¬ ((acc.length : ℤ) < count)) :
    genLoop off s e m count rng fuel k acc = (acc, 0) := by
  cases fuel with
  | zero => rfl
  | succ f => simp only [genLoop, if_neg h]

theorem generateRandomDay_zero_draw (off s : ℤ) :
    generateRandomDay off s s 0 = (s * dayMs + off).fdiv dayMs := by
  rw [generateRandomDay]
  simp only [sub_self, mul_zero, zero_mul, add_zero]
  rw [qtrunc_intCast]

theorem genDay_utc0 : generateRandomDay 0 20089 20089 0 = 20089 := by
  rw [generateRandomDay_zero_draw]
  decide

theorem genDay_west : generateRandomDay (-18000000) 20089 20089 0 = 20088 := by
  rw [generateRandomDay_zero_draw]
  decide

theorem randomHour_zero : randomHour 0 = 6 := by norm_num [randomHour]

theorem randomMinute_zero : randomMinute 0 = 0 := by norm_num [randomMinute]

end DateGenerator

theorem slotSpaced_symm (m : ℤ) : ∀ {a b : DateGenerator.Slot},
    SlotSpaced m a b → SlotSpaced m b a := by
  intro a b h
  exact ⟨h.1.symm, by rw [abs_sub_comm]; exact h.2⟩

/-- Claim C2 (amended): on a host whose UTC offset is nonnegative and
below one day (for example UTC itself or UTC+05:30), for every feasible
request, whenever `generateUniqueDates(count, startDate, endDate,
minDaysApart)` returns normally it returns exactly `count` slots sorted
ascending by date, pairwise distinct, all within [startDate, endDate],
pairwise at least `minDaysApart` days apart, with every time of day
inside [06:00, 22:00).  (On a host west of UTC the local-time
formatting defect recorded under claim C4 can shift a generated date one
day before `startDate`; see the counterexample.) -/
theorem claim_C2 (off count s e m : ℤ) (rng : ℕ → ℚ)
    (hoff : 0 ≤ off) (hoffd : off < DateGenerator.dayMs)
    (hcount : 1 ≤ count) (hse : s ≤ e) (hm : 0 ≤ m)
    (hfeas : (count - 1) * m ≤ e - s)
    (hrng : ∀ k, 0 ≤ rng k ∧ rng k < 1) :
    ∀ slots, DateGenerator.generateUniqueDates off count s e m rng = .ok slots →
      (slots.length : ℤ) = count ∧
      List.Sorted DateGenerator.slotLe slots ∧
      slots.Pairwise (SlotSpaced m) ∧
      ∀ x ∈ slots, SlotInRange s e x ∧ SlotTimeOk x := by
  intro slots h
  rw [DateGenerator.generateUniqueDates_eq off count s e m rng hse hfeas] at h
  by_cases hl : (((DateGenerator.genLoop off s e m count rng (count * 100).toNat 0 []).1.length : ℤ) < count)
  · rw [if_pos hl] at h
    exact absurd h (by simp)
  · rw [if_neg hl] at h
    have hslots : slots = List.insertionSort DateGenerator.slotLe
        (DateGenerator.genLoop off s e m count rng (count * 100).toNat 0 []).1 :=
      (Except.ok.inj h).symm
    obtain ⟨i1, i2, i3⟩ := DateGenerator.genLoop_inv off s e m count rng hoff hoffd hse hrng
      (count * 100).toNat 0 [] (by simp) (by simp) (by simp; omega)
    have hperm := List.perm_insertionSort DateGenerator.slotLe
      (DateGenerator.genLoop off s e m count rng (count * 100).toNat 0 []).1
    refine ⟨?_, ?_, ?_, ?_⟩
    · rw [hslots, hperm.length_eq]
      omega
    · rw [hslots]
      exact List.sorted_insertionSort DateGenerator.slotLe _
    · rw [hslots]
      exact List.Pairwise.perm i2 hperm.symm (slotSpaced_symm m)
    · intro x hx
      rw [hslots] at hx
      exact i1 x (hperm.mem_iff.1 hx)

theorem genLoop_one (off s e m d : ℤ)
    (hday : DateGenerator.generateRandomDay off s e 0 = d) (n : ℕ) :
    DateGenerator.genLoop off s e m 1 rngZero (n + 1) 0 [] =
      ([⟨d, 6, 0⟩], 1) := by
  simp [DateGenerator.genLoop, rngZero, hday, DateGenerator.isDateProperlySpaced,
    DateGenerator.randomHour_zero, DateGenerator.randomMinute_zero,
    DateGenerator.genLoop_full]

theorem c2_eval_west :
    DateGenerator.generateUniqueDates (-18000000) 1 20089 20089 3 rngZero =
      .ok [⟨20088, 6, 0⟩] := by
  rw [DateGenerator.generateUniqueDates_eq _ _ _ _ _ _ (le_refl _) (by norm_num)]
  rw [show ((1 : ℤ) * 100).toNat = 99 + 1 by decide]
  rw [genLoop_one (-18000000) 20089 20089 3 20088 DateGenerator.genDay_west 99]
  simp [List.insertionSort, List.orderedInsert]

theorem c2_eval_utc :
    DateGenerator.generateUniqueDates 0 1 20089 20089 3 rngZero =
      .ok [⟨20089, 6, 0⟩] := by
  rw [DateGenerator.generateUniqueDates_eq _ _ _ _ _ _ (le_refl _) (by norm_num)]
  rw [show ((1 : ℤ) * 100).toNat = 99 + 1 by decide]
  rw [genLoop_one 0 20089 20089 3 20089 DateGenerator.genDay_utc0 99]
  simp [List.insertionSort, List.orderedInsert]

/-- Claim C2 (counterexample): on a host at UTC-05:00 (offset
-18000000 ms), with count = 1, startDate = endDate = 2025-01-01 (epoch
day 20089), minDaysApart = 3 and the all-zero draw stream — an input
satisfying every precondition of the claim — `generateUniqueDates`
returns normally, but its only slot carries the date 2024-12-31 (epoch
day 20088), outside [startDate, endDate]. -/
theorem claim_C2_counterexample :
    DateGenerator.generateUniqueDates (-18000000) 1 20089 20089 3 rngZero =
      .ok [⟨20088, 6, 0⟩] ∧
    ¬ SlotInRange 20089 20089 (⟨20088, 6, 0⟩ : DateGenerator.Slot) :=
  ⟨c2_eval_west, by norm_num [SlotInRange]⟩

/-- Claim C2 (witness at offset 0, count = 1, startDate = endDate =
2025-01-01, spacing 3, all-zero draws). -/
theorem claim_C2_witness :
    ((([(⟨20089, 6, 0⟩ : DateGenerator.Slot)]).length : ℤ) = 1) ∧
    List.Sorted DateGenerator.slotLe [(⟨20089, 6, 0⟩ : DateGenerator.Slot)] ∧
    ([(⟨20089, 6, 0⟩ : DateGenerator.Slot)]).Pairwise (SlotSpaced 3) ∧
    ∀ x ∈ [(⟨20089, 6, 0⟩ : DateGenerator.Slot)],
      SlotInRange 20089 20089 x ∧ SlotTimeOk x :=
  claim_C2 0 1 20089 20089 3 rngZero (le_refl 0)
    (by norm_num [DateGenerator.dayMs]) (le_refl 1) (le_refl 20089)
    (by norm_num) (by norm_num) (fun k => ⟨le_rfl, by norm_num [rngZero]⟩)
    [⟨20089, 6, 0⟩] c2_eval_utc

/-- Claim C4: date generation in `src/utils/dateGenerator.js` is NOT
timezone-invariant.  With startDate = endDate = "2025-01-01" and the
same zero draw, `generateRandomDate` yields "2025-01-01" on a UTC host
but "2024-12-31" on a host at UTC-05:00, because the random timestamp
is formatted through the local-time `getFullYear`/`getMonth`/`getDate`
accessors.  The `parseDate`-based variant (src/unnamed/part_002), which
works exclusively in UTC, yields "2025-01-01" independent of any host
offset, as the spec demands. -/
theorem claim_C4 :
    DateGenerator.generateRandomDate 0 20089 20089 0 = .ok "2025-01-01" ∧
    DateGenerator.generateRandomDate (-18000000) 20089 20089 0 = .ok "2024-12-31" ∧
    DateGeneratorUTC.generateRandomDate 20089 20089 0 = .ok "2025-01-01" := by
  refine ⟨?_, ?_, ?_⟩
  · rw [DateGenerator.generateRandomDate, if_neg (by decide : ¬ (20089 : ℤ) < 20089),
      DateGenerator.genDay_utc0]
    simp only [Except.ok.injEq]
    decide
  · rw [DateGenerator.generateRandomDate, if_neg (by decide : ¬ (20089 : ℤ) < 20089),
      DateGenerator.genDay_west]
    simp only [Except.ok.injEq]
    decide
  · rw [DateGeneratorUTC.generateRandomDate, DateGeneratorUTC.generateRandomDayResult]
    rw [if_neg (by decide : ¬ (20089 : ℤ) < 20089)]
    simp only [sub_self, mul_zero, zero_mul, add_zero, zero_div, Int.floor_zero]
    have h1 : ¬ ¬ (1000 ≤ (DateGenerator.civilFromDays 20089).1 ∧
        (DateGenerator.civilFromDays 20089).1 ≤ 9999) := by decide
    have h2 : ¬ ((DateGenerator.civilFromDays 20089).1 < 1900 ∨
        2100 < (DateGenerator.civilFromDays 20089).1) := by decide
    have h3 : ¬ ((20089 : ℤ) * DateGenerator.dayMs < 20089 * DateGenerator.dayMs ∨
        (20089 : ℤ) * DateGenerator.dayMs < 20089 * DateGenerator.dayMs) := by decide
    rw [if_neg h1, if_neg h2, if_neg h3]
    simp only [Except.map, Except.ok.injEq]
    decide

/-- Claim C8: the rejection-sampling loop of `generateUniqueDates`
performs at most `count × 100` draw attempts, and when the validated
call accumulates fewer than `count` acceptable dates within that bound
it fails with the exhaustion error instead of looping further. -/
theorem claim_C8 (off count s e m : ℤ) (rng : ℕ → ℚ) :
    DateGenerator.generateUniqueDatesAttempts off count s e m rng ≤
      (count * 100).toNat ∧
    (s ≤ e → (count - 1) * m ≤ e - s →
      ((DateGenerator.genLoop off s e m count rng (count * 100).toNat 0 []).1.length : ℤ) < count →
      DateGenerator.generateUniqueDates off count s e m rng = .error .exhausted) := by
  constructor
  · simp only [DateGenerator.generateUniqueDatesAttempts,
      DateGenerator.generateUniqueDatesRun]
    split_ifs
    · exact Nat.zero_le _
    · exact Nat.zero_le _
    · exact DateGenerator.genLoop_attempts off s e m count rng _ 0 []
    · exact DateGenerator.genLoop_attempts off s e m count rng _ 0 []
  · intro hse hfeas hlen
    rw [DateGenerator.generateUniqueDates_eq off count s e m rng hse hfeas, if_pos hlen]

theorem c8_day_zero : DateGenerator.generateRandomDay 0 0 3 0 = 0 := by
  rw [DateGenerator.generateRandomDay]
  norm_num [qtrunc, DateGenerator.dayMs]

theorem c8_stuck : ∀ (f k : ℕ),
    DateGenerator.genLoop 0 0 3 3 2 rngZero f k [⟨0, 6, 0⟩] = ([⟨0, 6, 0⟩], f) := by
  intro f
  induction f with
  | zero => intro k; rfl
  | succ f ih =>
    intro k
    rw [DateGenerator.genLoop,
      if_pos (by simp : ((([(⟨0, 6, 0⟩ : DateGenerator.Slot)]).length : ℤ) < 2))]
    simp only [rngZero, c8_day_zero]
    rw [if_neg (by decide)]
    rw [ih (k + 1)]

theorem c8_loop : DateGenerator.genLoop 0 0 3 3 2 rngZero 200 0 [] = ([⟨0, 6, 0⟩], 200) := by
  show DateGenerator.genLoop 0 0 3 3 2 rngZero (199 + 1) 0 [] = ([⟨0, 6, 0⟩], 200)
  rw [DateGenerator.genLoop,
    if_pos (by simp : ((([] : List DateGenerator.Slot).length : ℤ) < 2))]
  simp only [rngZero, c8_day_zero, DateGenerator.randomHour_zero,
    DateGenerator.randomMinute_zero]
  rw [if_pos (by decide), List.nil_append]
  rw [c8_stuck 199 3]

/-- Claim C8 (witness: with count = 2 in the one-day-range request
(0, 3) at spacing 3 and the all-zero draw stream every draw repeats day
0, so the loop exhausts its 200 attempts with one accepted date and the
call fails with the exhaustion error). -/
theorem claim_C8_witness :
    DateGenerator.generateUniqueDatesAttempts 0 2 0 3 3 rngZero ≤ ((2 : ℤ) * 100).toNat ∧
    DateGenerator.generateUniqueDates 0 2 0 3 3 rngZero = .error .exhausted := by
  constructor
  · exact (claim_C8 0 2 0 3 3 rngZero).1
  · apply (claim_C8 0 2 0 3 3 rngZero).2 (by norm_num) (by norm_num)
    rw [show ((2 : ℤ) * 100).toNat = 200 by decide, c8_loop]
    norm_num

/-- Claim C10: for count ≤ 0 and any valid date range, both
`generateUniqueDates` implementations raise no error and return the
empty array: the infeasibility check passes vacuously, the sampling
loop body and the exhaustion check are skipped. -/
theorem claim_C10 (off count s e m : ℤ) (rng : ℕ → ℚ)
    (hcount : count ≤ 0) (hse : s ≤ e) (hm : 0 ≤ m) :
    DateGenerator.generateUniqueDates off count s e m rng = .ok [] ∧
    DateGeneratorUTC.generateUniqueDates count s e m rng = .ok [] := by
  have hfeas : (count - 1) * m ≤ e - s := by nlinarith
  have hnopos : ¬ ((([] : List DateGenerator.Slot).length : ℤ) < count) := by
    simp
    omega
  constructor
  · rw [DateGenerator.generateUniqueDates_eq off count s e m rng hse hfeas]
    rw [DateGenerator.genLoop_full off s e m count rng _ 0 [] hnopos]
    rw [if_neg hnopos]
    rfl
  · rw [DateGeneratorUTC.generateUniqueDates]
    rw [if_neg (not_lt.2 hse)]
    rw [DateGenerator.totalDays_eq, if_neg (not_lt.2 hfeas)]
    rw [show (count * 100).toNat = 0 from Int.toNat_of_nonpos (by nlinarith)]
    rw [show DateGeneratorUTC.genLoopU s e m count rng 0 0 [] = .ok [] from rfl]
    show (if (([] : List DateGenerator.Slot).length : ℤ) < count then
        Except.error DateGenerator.DateErr.exhausted
      else Except.ok (List.insertionSort DateGenerator.slotLe [])) = Except.ok []
    rw [if_neg hnopos]
    rfl

/-- Claim C10 (witness at count = 0, startDate = endDate = epoch day 0,
spacing 3). -/
theorem claim_C10_witness :
    DateGenerator.generateUniqueDates 0 0 0 0 3 rngZero = .ok [] ∧
    DateGeneratorUTC.generateUniqueDates 0 0 0 3 rngZero = .ok [] :=
  claim_C10 0 0 0 0 3 rngZero (le_refl 0) (le_refl 0) (by norm_num)

/-- Claim C5 (counterexample): `mergePDFs` applied to an empty input
sequence does not fail — the copy loop is skipped and the empty output
document is saved and returned. -/
theorem claim_C5_counterexample :
    PdfMerger.mergePDFs ([] : List (Option (List ℕ))) = .ok [] := rfl

theorem mergeLoop_ok {α : Type} : ∀ (docs : List (List α)) (i : ℕ) (acc : List α),
    PdfMerger.mergeLoop i (docs.map some) acc = .ok (acc ++ docs.flatten) := by
  intro docs
  induction docs with
  | nil => intro i acc; simp [PdfMerger.mergeLoop]
  | cons d rest ih =>
    intro i acc
    simp only [List.map_cons, PdfMerger.mergeLoop, ih, List.flatten_cons]
    rw [List.append_assoc]

/-- Claim C5 (amended): the zero-documents failure lives in
`mergePDFsInDirectory`, which fails with its no-files-found error when
no directory entry matches the pattern; `mergePDFs` itself, applied to
an empty sequence, succeeds with an empty (zero-page) output document
rather than failing. -/
theorem claim_C5 {α : Type} (directory : List (String × Option (List α)))
    (pattern : String)
    (h : directory.filter (fun entry => PdfMerger.fileMatches pattern entry.1) = []) :
    PdfMerger.mergePDFsInDirectory directory pattern = .error .noFilesFound ∧
    PdfMerger.mergePDFs ([] : List (Option (List α))) = .ok [] := by
  constructor
  · rw [PdfMerger.mergePDFsInDirectory]
    simp only [h]
    rfl
  · rfl

/-- Claim C5 (witness: a directory whose single entry matches neither
the pattern nor the .pdf suffix). -/
theorem claim_C5_witness :
    PdfMerger.mergePDFsInDirectory [("a.txt", some [1])] "fuel-bill-" =
      .error .noFilesFound ∧
    PdfMerger.mergePDFs ([] : List (Option (List ℕ))) = .ok [] :=
  claim_C5 [("a.txt", some [1])] "fuel-bill-" (by decide)

/-- Claim C9: merging well-formed documents is order-preserving — the
output page sequence is the concatenation of the input page sequences in
the given order — and associative: merging [A, B, C] produces the page
sequence of merging [A, B] followed by the pages of C. -/
theorem claim_C9 {α : Type} (docs : List (List α)) (hne : docs ≠ []) :
    PdfMerger.mergePDFs (docs.map some) = .ok docs.flatten ∧
    ∀ A B C : List α, ∃ ab, PdfMerger.mergePDFs [some A, some B] = .ok ab ∧
      PdfMerger.mergePDFs [some A, some B, some C] = .ok (ab ++ C) := by
  constructor
  · rw [PdfMerger.mergePDFs]
    have := mergeLoop_ok docs 0 []
    simpa using this
  · intro A B C
    refine ⟨A ++ B, ?_, ?_⟩
    · simp [PdfMerger.mergePDFs, PdfMerger.mergeLoop]
    · simp [PdfMerger.mergePDFs, PdfMerger.mergeLoop, List.append_assoc]

/-- Claim C9 (witness at the two-page input [[0], [1]] and the triple
([0], [1], [2])). -/
theorem claim_C9_witness :
    PdfMerger.mergePDFs ([[0], [1]].map some) = .ok ([[0], [1]] : List (List ℕ)).flatten ∧
    ∀ A B C : List ℕ, ∃ ab, PdfMerger.mergePDFs [some A, some B] = .ok ab ∧
      PdfMerger.mergePDFs [some A, some B, some C] = .ok (ab ++ C) :=
  claim_C9 [[0], [1]] (by simp)

/-- Claim C6 (counterexample): the string "3.0" is NOT flagged:
`parseInt("3.0") = 3` equals `parseFloat("3.0") = 3.0` numerically, so
the whole-number check passes and `validateNumberOfBills` reports no
violation for the fractional source form. -/
theorem claim_C6_counterexample :
    Validator.validateNumberOfBills (.str "3.0") = none := by
  have h1 : Validator.jsParseInt (.str "3.0") = some 3 := by decide
  have h2 : Validator.jsParseFloat (.str "3.0") =
      some (((30 : ℕ) : ℚ) / ((10 : ℕ) : ℚ)) := rfl
  norm_num [Validator.validateNumberOfBills, h1, h2]
  rintro (h | h | h) <;> simp at h

/-- Claim C6 (amended): the whole-number check of
`validateNumberOfBills` flags only numerically non-integral inputs:
the string "3.5" is rejected with the whole-number message, while the
number 3 and the fractional-form-but-integral string "3.0" are both
accepted without violation. -/
theorem claim_C6 :
    Validator.validateNumberOfBills (.str "3.5") =
      some "Number of Bills must be a whole number" ∧
    Validator.validateNumberOfBills (.num 3) = none ∧
    Validator.validateNumberOfBills (.str "3.0") = none := by
  refine ⟨?_, ?_, ?_⟩
  · have h1 : Validator.jsParseInt (.str "3.5") = some 3 := by decide
    have h2 : Validator.jsParseFloat (.str "3.5") =
        some (((35 : ℕ) : ℚ) / ((10 : ℕ) : ℚ)) := rfl
    norm_num [Validator.validateNumberOfBills, h1, h2]
    rintro (h | h | h) <;> simp at h
  · have h1 : Validator.jsParseInt (.num 3) = some (qtrunc 3) := rfl
    have hq : qtrunc 3 = 3 := by norm_num [qtrunc]
    have h2 : Validator.jsParseFloat (.num 3) = some 3 := rfl
    norm_num [Validator.validateNumberOfBills, h1, hq, h2]
    rintro (h | h | h) <;> simp at h
  · have h1 : Validator.jsParseInt (.str "3.0") = some 3 := by decide
    have h2 : Validator.jsParseFloat (.str "3.0") =
        some (((30 : ℕ) : ℚ) / ((10 : ℕ) : ℚ)) := rfl
    norm_num [Validator.validateNumberOfBills, h1, h2]
    rintro (h | h | h) <;> simp at h

theorem parseYMD_empty : Validator.parseYMD "" = none := rfl

theorem validateStationName_of_blank (s0 : String)
    (htrim : Validator.trimChars s0.data = []) :
    Validator.validateStationName (.str s0) = false := by
  simp only [Validator.validateStationName, htrim]
  simp

theorem validateFuelRate_zero :
    Validator.validateFuelRate (.num 0) = some "Fuel Rate must be greater than 0" := by
  rw [Validator.validateFuelRate, if_neg (by simp)]
  norm_num [Validator.jsParseFloat]

theorem validateDates_reversed (sd ed : String) (d1 d2 : ℤ)
    (hsd : Validator.parseYMD sd = some d1) (hed : Validator.parseYMD ed = some d2)
    (hlt : d2 < d1) :
    Validator.validateDates (.str sd) (.str ed) =
      some "End Date cannot be before Start Date" := by
  have hsd0 : sd ≠ "" := by
    intro h
    rw [h, parseYMD_empty] at hsd
    exact absurd hsd (by simp)
  have hed0 : ed ≠ "" := by
    intro h
    rw [h, parseYMD_empty] at hed
    exact absurd hed (by simp)
  rw [Validator.validateDates]
  rw [if_neg (by simp [Validator.falsy, hsd0])]
  rw [if_neg (by simp [Validator.falsy, hed0])]
  have hv1 : Validator.jsDateValue (.str sd) = some (d1 * DateGenerator.dayMs) := by
    simp only [Validator.jsDateValue, hsd, Option.map_some']
  have hv2 : Validator.jsDateValue (.str ed) = some (d2 * DateGenerator.dayMs) := by
    simp only [Validator.jsDateValue, hed, Option.map_some']
  rw [hv1, hv2]
  have : d2 * DateGenerator.dayMs < d1 * DateGenerator.dayMs :=
    mul_lt_mul_of_pos_right hlt DateGenerator.dayMs_pos
  simp only [this, if_pos]

/-- Claim C7: `validateBillGenerationData` is a total function returning
the complete violation list; on every request with a blank station name,
fuelRate = 0, and end date strictly before start date (all other fields
arbitrary) it reports invalid and the error list contains the three
distinct per-field messages simultaneously. -/
theorem claim_C7 (s0 : String) (template totalAmount numberOfBills maxAmountPerBill : Validator.JSVal)
    (sd ed : String) (d1 d2 : ℤ)
    (htrim : Validator.trimChars s0.data = [])
    (hsd : Validator.parseYMD sd = some d1) (hed : Validator.parseYMD ed = some d2)
    (hlt : d2 < d1) :
    (Validator.validateBillGenerationData
      ⟨.str s0, .num 0, template, totalAmount, numberOfBills, maxAmountPerBill,
        .str sd, .str ed⟩).isValid = false ∧
    "Fuel Station Name is required and cannot be empty" ∈
      (Validator.validateBillGenerationData
        ⟨.str s0, .num 0, template, totalAmount, numberOfBills, maxAmountPerBill,
          .str sd, .str ed⟩).errors ∧
    "Fuel Rate must be greater than 0" ∈
      (Validator.validateBillGenerationData
        ⟨.str s0, .num 0, template, totalAmount, numberOfBills, maxAmountPerBill,
          .str sd, .str ed⟩).errors ∧
    "End Date cannot be before Start Date" ∈
      (Validator.validateBillGenerationData
        ⟨.str s0, .num 0, template, totalAmount, numberOfBills, maxAmountPerBill,
          .str sd, .str ed⟩).errors ∧
    ("Fuel Station Name is required and cannot be empty" ≠
        "Fuel Rate must be greater than 0" ∧
      "Fuel Station Name is required and cannot be empty" ≠
        "End Date cannot be before Start Date" ∧
      "Fuel Rate must be greater than 0" ≠
        "End Date cannot be before Start Date") := by
  simp only [Validator.validateBillGenerationData,
    validateStationName_of_blank s0 htrim, validateFuelRate_zero,
    validateDates_reversed sd ed d1 d2 hsd hed hlt]
  refine ⟨?_, ?_, ?_, ?_, by decide, by decide, by decide⟩
  · simp [Validator.optList]
  · simp [Validator.optList]
  · simp [Validator.optList]
  · simp [Validator.optList]

/-- Claim C7 (witness at station name "", fuelRate 0, dates 2025-01-02
and 2025-01-01, remaining fields undefined). -/
theorem claim_C7_witness :
    (Validator.validateBillGenerationData
      ⟨.str "", .num 0, .undefinedVal, .undefinedVal, .undefinedVal, .undefinedVal,
        .str "2025-01-02", .str "2025-01-01"⟩).isValid = false ∧
    "Fuel Station Name is required and cannot be empty" ∈
      (Validator.validateBillGenerationData
        ⟨.str "", .num 0, .undefinedVal, .undefinedVal, .undefinedVal, .undefinedVal,
          .str "2025-01-02", .str "2025-01-01"⟩).errors ∧
    "Fuel Rate must be greater than 0" ∈
      (Validator.validateBillGenerationData
        ⟨.str "", .num 0, .undefinedVal, .undefinedVal, .undefinedVal, .undefinedVal,
          .str "2025-01-02", .str "2025-01-01"⟩).errors ∧
    "End Date cannot be before Start Date" ∈
      (Validator.validateBillGenerationData
        ⟨.str "", .num 0, .undefinedVal, .undefinedVal, .undefinedVal, .undefinedVal,
          .str "2025-01-02", .str "2025-01-01"⟩).errors ∧
    ("Fuel Station Name is required and cannot be empty" ≠
        "Fuel Rate must be greater than 0" ∧
      "Fuel Station Name is required and cannot be empty" ≠
        "End Date cannot be before Start Date" ∧
      "Fuel Rate must be greater than 0" ≠
        "End Date cannot be before Start Date") :=
  claim_C7 "" .undefinedVal .undefinedVal .undefinedVal .undefinedVal "2025-01-02" "2025-01-01" 20090 20089
    rfl (by decide) (by decide) (by decide)
